import Mathlib

/-!
Shallow embedding of `src/student-mgmt-app/backend/app.py`, a Flask CRUD
service over one PostgreSQL table, together with the table semantics
declared by `init_db`:

  CREATE TABLE IF NOT EXISTS students (
      id SERIAL PRIMARY KEY,
      name VARCHAR(100) NOT NULL,
      email VARCHAR(100) UNIQUE NOT NULL,
      age INTEGER NOT NULL,
      course VARCHAR(100) NOT NULL,
      created_at TIMESTAMP DEFAULT CURRENT_TIMESTAMP
  )

The store is modelled as a list of rows plus the SERIAL sequence counter.
JSON scalar values are modelled by `JVal` (null / string / integer); the
store's column-type coercions are not modelled (no claim depends on them),
but the declared constraints are: NOT NULL on the four data columns and
UNIQUE on email raise an integrity error, exactly the `psycopg2.IntegrityError`
the handlers catch.  `created_at` (a wall-clock timestamp, irrelevant to
every claim) is omitted from the row model.  The SERIAL sequence is
non-transactional in PostgreSQL, so a rolled-back insert still consumes an
id: `Db.insert` increments `nextId` even on failure.

Each HTTP handler becomes a function taking a `connOk : Bool` flag
(whether `get_db_connection` succeeds, i.e. the store is reachable), the
store state, and the request data, returning the new store state and the
`Response` (status code plus JSON body shape).
-/

namespace StudentApp

/-- JSON scalar value as it reaches psycopg2: JSON null becomes Python
`None` (SQL NULL), strings and integers pass through. -/
inductive JVal where
  | null : JVal
  | str : String → JVal
  | int : Int → JVal
deriving DecidableEq, Repr

/-- Whether the value is SQL NULL. -/
def JVal.isNull : JVal → Bool
  | .null => true
  | _ => false

/-- One row of the `students` table (minus `created_at`, see header). -/
structure Row where
  id : Nat
  name : JVal
  email : JVal
  age : JVal
  course : JVal
deriving DecidableEq, Repr

/-- The store: table contents plus the `id SERIAL` sequence counter. -/
structure Db where
  rows : List Row
  nextId : Nat
deriving DecidableEq, Repr

/-- The table right after `init_db` on a fresh database: empty, sequence at 1. -/
def emptyDb : Db := ⟨[], 1⟩

/-- A JSON request body for create/update: for each of the four fields,
`none` means the key is absent from the payload, `some v` that it is
present with value `v` (possibly JSON null). -/
structure Payload where
  name : Option JVal
  email : Option JVal
  age : Option JVal
  course : Option JVal
deriving DecidableEq, Repr

/-- Python's `data.get(key)`: `None` when the key is absent, and JSON null
also arrives as `None`; both are SQL NULL. -/
def Payload.getName (p : Payload) : JVal := p.name.getD .null

/-- Python's `data.get('email')`; see `Payload.getName`. -/
def Payload.getEmail (p : Payload) : JVal := p.email.getD .null

/-- Python's `data.get('age')`; see `Payload.getName`. -/
def Payload.getAge (p : Payload) : JVal := p.age.getD .null

/-- Python's `data.get('course')`; see `Payload.getName`. -/
def Payload.getCourse (p : Payload) : JVal := p.course.getD .null

/-- Result of executing an INSERT/UPDATE against the table: either the
affected row (RETURNING *) or a `psycopg2.IntegrityError` from a NOT NULL
or UNIQUE constraint. -/
inductive ExecResult where
  | ok : Row → ExecResult
  | integrityError : ExecResult
deriving DecidableEq, Repr

/-- JSON response body shapes produced by the handlers. -/
inductive Body where
  | error : String → Body
  | student : Row → Body
  | students : List Row → Body
  | message : String → Body
  | health : String → String → Body
deriving DecidableEq, Repr

/-- An HTTP response: status code and JSON body. -/
structure Response where
  status : Nat
  body : Body
deriving DecidableEq, Repr

/-- Ordering used by `SELECT * FROM students ORDER BY id`. -/
def byId (a b : Row) : Prop := a.id ≤ b.id

instance : DecidableRel byId := fun a b => Nat.decLe a.id b.id

/-- Statement `SELECT * FROM students ORDER BY id`: the rows sorted (stably) by
ascending id. -/
def Db.selectAll (db : Db) : List Row := db.rows.insertionSort byId

/-- Statement `INSERT INTO students (name, email, age, course) VALUES (...) RETURNING *`.
Checks the declared constraints: NOT NULL on all four columns (checked at
tuple formation, after the SERIAL default has consumed an id), then UNIQUE
on email.  On violation the transaction will be rolled back, but the
sequence increment survives, hence the `nextId` bump on both branches. -/
def Db.insert (db : Db) (name email age course : JVal) : Db × ExecResult :=
  if name.isNull || email.isNull || age.isNull || course.isNull then
    (⟨db.rows, db.nextId + 1⟩, .integrityError)
  else if db.rows.any (fun r => r.email == email) then
    (⟨db.rows, db.nextId + 1⟩, .integrityError)
  else
    (⟨db.rows ++ [⟨db.nextId, name, email, age, course⟩], db.nextId + 1⟩,
     .ok ⟨db.nextId, name, email, age, course⟩)

/-- Statement `UPDATE students SET name=..., email=..., age=..., course=... WHERE id=%s
RETURNING *`, on a table where a row with that id exists (the handler has
already checked; `id` is the PRIMARY KEY, so the match is unique).  NOT NULL
is checked on the new values, UNIQUE email against every other row. -/
def Db.updateRow (db : Db) (sid : Nat) (name email age course : JVal) :
    Db × ExecResult :=
  if name.isNull || email.isNull || age.isNull || course.isNull then
    (db, .integrityError)
  else if db.rows.any (fun r => r.id != sid && r.email == email) then
    (db, .integrityError)
  else
    (⟨db.rows.map (fun r => if r.id == sid then ⟨r.id, name, email, age, course⟩ else r),
      db.nextId⟩,
     .ok ⟨sid, name, email, age, course⟩)

/-- Handler `GET /health`. -/
def health_check : Response :=
  ⟨200, .health "healthy" "student-management-backend"⟩

/-- Handler `GET /api/students`. -/
def get_students (connOk : Bool) (db : Db) : Response :=
  if !connOk then ⟨500, .error "Database connection failed"⟩
  else ⟨200, .students db.selectAll⟩

/-- Handler `GET /api/students/<int:student_id>`. -/
def get_student (connOk : Bool) (db : Db) (student_id : Nat) : Response :=
  if !connOk then ⟨500, .error "Database connection failed"⟩
  else
    match db.rows.find? (fun r => r.id == student_id) with
    | some r => ⟨200, .student r⟩
    | none => ⟨404, .error "Student not found"⟩

/-- The required-fields loop of `create_student`: the first name in
`['name', 'email', 'age', 'course']` whose key is absent from the payload. -/
def firstMissing (p : Payload) : Option String :=
  if p.name.isNone then some "name"
  else if p.email.isNone then some "email"
  else if p.age.isNone then some "age"
  else if p.course.isNone then some "course"
  else none

/-- Handler `POST /api/students`.  Validates key presence (only), then
connects, then inserts; `IntegrityError` is rolled back and mapped to 409. -/
def create_student (connOk : Bool) (db : Db) (p : Payload) : Db × Response :=
  match firstMissing p with
  | some f => (db, ⟨400, .error ("Missing required field: " ++ f)⟩)
  | none =>
    if !connOk then (db, ⟨500, .error "Database connection failed"⟩)
    else
      match db.insert (p.getName) (p.getEmail) (p.getAge) (p.getCourse) with
      | (db', .ok r) => (db', ⟨201, .student r⟩)
      | (db', .integrityError) => (db', ⟨409, .error "Email already exists"⟩)

/-- Handler `PUT /api/students/<int:student_id>`.  Connects, checks the row
exists (else 404), then replaces all four fields with `data.get(...)`
values; `IntegrityError` is rolled back (table contents restored) and
mapped to 409. -/
def update_student (connOk : Bool) (db : Db) (student_id : Nat) (p : Payload) :
    Db × Response :=
  if !connOk then (db, ⟨500, .error "Database connection failed"⟩)
  else
    match db.rows.find? (fun r => r.id == student_id) with
    | none => (db, ⟨404, .error "Student not found"⟩)
    | some _ =>
      match db.updateRow student_id (p.getName) (p.getEmail) (p.getAge) (p.getCourse) with
      | (db', .ok r) => (db', ⟨200, .student r⟩)
      | (_, .integrityError) => (db, ⟨409, .error "Email already exists"⟩)

/-- Handler `DELETE /api/students/<int:student_id>`.  Executes the DELETE,
then checks `cursor.rowcount`; 0 deleted rows means 404 (and nothing was
removed), otherwise the deletion is committed. -/
def delete_student (connOk : Bool) (db : Db) (student_id : Nat) : Db × Response :=
  if !connOk then (db, ⟨500, .error "Database connection failed"⟩)
  else
    if db.rows.countP (fun r => r.id == student_id) == 0 then
      (db, ⟨404, .error "Student not found"⟩)
    else
      (⟨db.rows.filter (fun r => r.id != student_id), db.nextId⟩,
       ⟨200, .message "Student deleted successfully"⟩)

/-- Whether the value is a JSON string. -/
def JVal.isStr : JVal → Bool
  | .str _ => true
  | _ => false

/-- Whether the value is a JSON integer. -/
def JVal.isInt : JVal → Bool
  | .int _ => true
  | _ => false

/-- All four required keys are present in the payload (values arbitrary,
possibly null): exactly what the `create_student` validation loop checks. -/
def allPresent (p : Payload) : Bool :=
  p.name.isSome && p.email.isSome && p.age.isSome && p.course.isSome

/-- A payload carrying the four keys with values of the column types
(strings for name/email/course, an integer for age): the condition under
which an insert can only fail through a constraint, never a type error. -/
def validPayload (p : Payload) : Bool :=
  p.getName.isStr && p.getEmail.isStr && p.getAge.isInt && p.getCourse.isStr

/-! Sample concrete data used by witnesses and counterexamples. -/

/-- A sample stored row. -/
def annRow : Row := ⟨1, .str "Ann", .str "ann@x.com", .int 20, .str "CS"⟩

/-- A sample store holding just `annRow`. -/
def db1 : Db := ⟨[annRow], 2⟩

/-- A sample update payload carrying only the `name` key. -/
def pNameOnly : Payload := ⟨some (.str "Ann B"), none, none, none⟩

/-- A sample complete create payload. -/
def pAnn : Payload :=
  ⟨some (.str "Ann"), some (.str "ann@x.com"), some (.int 20), some (.str "CS")⟩

/-- A complete create payload reusing `pAnn`'s email. -/
def pBob : Payload :=
  ⟨some (.str "Bob"), some (.str "ann@x.com"), some (.int 21), some (.str "Math")⟩

/-- A complete create payload with an email distinct from `pAnn`'s. -/
def pCar : Payload :=
  ⟨some (.str "Car"), some (.str "car@x.com"), some (.int 22), some (.str "Bio")⟩

/-! Basic lemmas about the value and payload predicates. -/

lemma JVal.isNull_eq_false {j : JVal} (h : j.isStr = true ∨ j.isInt = true) :
    j.isNull = false := by
  cases j <;> simp_all [JVal.isStr, JVal.isInt, JVal.isNull]

lemma validPayload_allPresent {p : Payload} (h : validPayload p = true) :
    allPresent p = true := by
  obtain ⟨n, e, a, c⟩ := p
  simp only [validPayload, Payload.getName, Payload.getEmail, Payload.getAge,
    Payload.getCourse, Bool.and_eq_true] at h
  cases n <;> cases e <;> cases a <;> cases c <;>
    simp_all [allPresent, JVal.isStr, JVal.isInt]

lemma firstMissing_eq_none {p : Payload} (h : allPresent p = true) :
    firstMissing p = none := by
  simp only [allPresent, Bool.and_eq_true, Option.isSome_iff_ne_none] at h
  simp [firstMissing, Option.isNone_iff_eq_none, h.1.1.1, h.1.1.2, h.1.2, h.2]

lemma validPayload_notNull {p : Payload} (h : validPayload p = true) :
    p.getName.isNull = false ∧ p.getEmail.isNull = false ∧
    p.getAge.isNull = false ∧ p.getCourse.isNull = false := by
  simp only [validPayload, Bool.and_eq_true] at h
  exact ⟨JVal.isNull_eq_false (Or.inl h.1.1.1), JVal.isNull_eq_false (Or.inl h.1.1.2),
    JVal.isNull_eq_false (Or.inr h.1.2), JVal.isNull_eq_false (Or.inl h.2)⟩

/-- Successful insert path of `create_student`: all four keys present with
column-typed values and a fresh email append the new row and return 201. -/
lemma create_valid_success {db : Db} {p : Payload} (hv : validPayload p = true)
    (hfresh : db.rows.any (fun r => r.email == p.getEmail) = false) :
    create_student true db p =
      (⟨db.rows ++ [⟨db.nextId, p.getName, p.getEmail, p.getAge, p.getCourse⟩],
        db.nextId + 1⟩,
       ⟨201, .student ⟨db.nextId, p.getName, p.getEmail, p.getAge, p.getCourse⟩⟩) := by
  obtain ⟨h1, h2, h3, h4⟩ := validPayload_notNull hv
  simp [create_student, firstMissing_eq_none (validPayload_allPresent hv),
    Db.insert, h1, h2, h3, h4, hfresh]

/-- Second sample stored row, with a distinct email. -/
def carRow : Row := ⟨2, .str "Car", .str "car@x.com", .int 22, .str "Bio"⟩

/-- A sample store holding `annRow` and `carRow`. -/
def db2 : Db := ⟨[annRow, carRow], 3⟩

/-- A complete update payload moving Ann onto Car's email. -/
def pToCar : Payload :=
  ⟨some (.str "Ann"), some (.str "car@x.com"), some (.int 20), some (.str "CS")⟩

/-- C3: a create payload lacking one of the keys name, email, age, course
fails with 400 naming the first absent field in that order; when all four
keys are present the response is never a 400, whatever the values. -/
theorem create_missing_field_validation (connOk : Bool) (db : Db) (p : Payload) :
    (p.name = none →
      (create_student connOk db p).2 = ⟨400, .error "Missing required field: name"⟩) ∧
    (p.name ≠ none → p.email = none →
      (create_student connOk db p).2 = ⟨400, .error "Missing required field: email"⟩) ∧
    (p.name ≠ none → p.email ≠ none → p.age = none →
      (create_student connOk db p).2 = ⟨400, .error "Missing required field: age"⟩) ∧
    (p.name ≠ none → p.email ≠ none → p.age ≠ none → p.course = none →
      (create_student connOk db p).2 = ⟨400, .error "Missing required field: course"⟩) ∧
    (allPresent p = true → (create_student connOk db p).2.status ≠ 400) := by
  refine ⟨fun h1 => ?_, fun h1 h2 => ?_, fun h1 h2 h3 => ?_, fun h1 h2 h3 h4 => ?_,
    fun hall => ?_⟩
  · simp [create_student, firstMissing, h1]
  · simp [create_student, firstMissing, Option.isNone_iff_eq_none, h1, h2]
  · simp [create_student, firstMissing, Option.isNone_iff_eq_none, h1, h2, h3]
  · simp [create_student, firstMissing, Option.isNone_iff_eq_none, h1, h2, h3, h4]
  · rcases hc : connOk with _ | _
    · simp [create_student, firstMissing_eq_none hall]
    · rcases hins : db.insert (p.getName) (p.getEmail) (p.getAge) (p.getCourse)
        with ⟨db', res⟩
      cases res <;> simp [create_student, firstMissing_eq_none hall, hins]

/-- C3 witness: a payload with name and age but no email is rejected with
400 naming email. -/
theorem create_missing_field_validation_witness :
    (create_student true emptyDb ⟨some (.str "x"), none, some (.int 1), none⟩).2 =
      ⟨400, .error "Missing required field: email"⟩ :=
  (create_missing_field_validation true emptyDb
    ⟨some (.str "x"), none, some (.int 1), none⟩).2.1 (by decide) rfl

/-- C4: an update whose id matches no stored row returns 404 and leaves the
store (table contents and sequence) unchanged. -/
theorem update_not_found_unchanged (db : Db) (sid : Nat) (p : Payload)
    (h : ∀ r ∈ db.rows, r.id ≠ sid) :
    update_student true db sid p = (db, ⟨404, .error "Student not found"⟩) := by
  have hf : db.rows.find? (fun r => r.id == sid) = none :=
    List.find?_eq_none.mpr (fun r hr => by simpa using h r hr)
  simp [update_student, hf]

/-- C4 witness: updating id 7 on a store holding only id 1 yields 404 with
the store unchanged. -/
theorem update_not_found_unchanged_witness :
    (∀ r ∈ db1.rows, r.id ≠ 7) ∧
    update_student true db1 7 pAnn = (db1, ⟨404, .error "Student not found"⟩) :=
  ⟨by decide, update_not_found_unchanged db1 7 pAnn (by decide)⟩

/-- C10: when a required key is absent, `create_student` answers 400 with
the store untouched, identically whether the store is reachable or not —
the validation loop runs before `get_db_connection`, so the store is never
contacted and the 400 cannot be masked by a connectivity failure. -/
theorem create_missing_field_no_store_contact (connOk : Bool) (db : Db) (p : Payload)
    (f : String) (h : firstMissing p = some f) :
    create_student connOk db p = (db, ⟨400, .error ("Missing required field: " ++ f)⟩) ∧
    create_student connOk db p = create_student false db p := by
  constructor <;> simp [create_student, h]

/-- C10 witness: the name-only payload gets the same 400 response on an
unreachable store as on a reachable one. -/
theorem create_missing_field_no_store_contact_witness :
    create_student true db1 pNameOnly =
      (db1, ⟨400, .error ("Missing required field: " ++ "email")⟩) :=
  (create_missing_field_no_store_contact true db1 pNameOnly "email" rfl).1

/-- C1 counterexample: on a store whose row 1 exists, a PUT payload
carrying only `name` does NOT succeed with 200 and nulled-out remaining
fields: the NOT NULL columns make the replace raise an integrity error,
mapped to status 409. -/
theorem update_partial_payload_is_409_not_200 :
    db1.rows.find? (fun r => r.id == 1) = some annRow ∧
    (update_student true db1 1 pNameOnly).2.status = 409 ∧
    ¬(update_student true db1 1 pNameOnly).2.status = 200 := by decide

/-- C1 amended: for an update whose id matches an existing row, all four
fields are replaced atomically with the payload's `get` values (absent key
means None/NULL); if that makes any column null the store's NOT NULL
constraint rejects the write with 409, the row unchanged; if all four are
non-null and the email collides with no other row, the operation returns
200 with the fully replaced record. -/
theorem update_full_replace_semantics (db : Db) (sid : Nat) (p : Payload) (r0 : Row)
    (hfind : db.rows.find? (fun r => r.id == sid) = some r0) :
    ((p.getName.isNull || p.getEmail.isNull || p.getAge.isNull || p.getCourse.isNull) = true →
      update_student true db sid p = (db, ⟨409, .error "Email already exists"⟩)) ∧
    ((p.getName.isNull || p.getEmail.isNull || p.getAge.isNull || p.getCourse.isNull) = false →
      db.rows.any (fun r => r.id != sid && r.email == p.getEmail) = false →
      update_student true db sid p =
        (⟨db.rows.map (fun r => if r.id == sid then
            ⟨r.id, p.getName, p.getEmail, p.getAge, p.getCourse⟩ else r), db.nextId⟩,
         ⟨200, .student ⟨sid, p.getName, p.getEmail, p.getAge, p.getCourse⟩⟩)) := by
  constructor
  · intro hnull
    simp [update_student, hfind, Db.updateRow, hnull]
  · intro hnull hdup
    simp [update_student, hfind, Db.updateRow, hnull, hdup]

/-- C1 witness: the name-only PUT on row 1 is answered 409 with the store
unchanged. -/
theorem update_full_replace_semantics_witness :
    update_student true db1 1 pNameOnly = (db1, ⟨409, .error "Email already exists"⟩) :=
  (update_full_replace_semantics db1 1 pNameOnly annRow (by decide)).1 (by decide)

/-- C9: on update of an existing row, every constraint violation — a null
column from an omitted field as much as a duplicate email — is answered
with 409 and the body message 'Email already exists', and the store is
rolled back to its previous contents. -/
theorem update_integrity_conflated_409 (db : Db) (sid : Nat) (p : Payload) (r0 : Row)
    (hfind : db.rows.find? (fun r => r.id == sid) = some r0)
    (hviol : (p.getName.isNull || p.getEmail.isNull ||
        p.getAge.isNull || p.getCourse.isNull) = true ∨
      db.rows.any (fun r => r.id != sid && r.email == p.getEmail) = true) :
    update_student true db sid p = (db, ⟨409, .error "Email already exists"⟩) := by
  rcases hviol with h | h
  · simp [update_student, hfind, Db.updateRow, h]
  · rcases hn : (p.getName.isNull || p.getEmail.isNull ||
        p.getAge.isNull || p.getCourse.isNull) with _ | _
    · simp [update_student, hfind, Db.updateRow, hn, h]
    · simp [update_student, hfind, Db.updateRow, hn]

/-- C9 witness: moving row 1 onto row 2's email (a genuine duplicate, no
nulls) is answered 409 'Email already exists' with the store unchanged. -/
theorem update_integrity_conflated_409_witness :
    update_student true db2 1 pToCar = (db2, ⟨409, .error "Email already exists"⟩) :=
  update_integrity_conflated_409 db2 1 pToCar annRow (by decide) (Or.inr (by decide))

/-- Integrity-error path of `create_student`: all four keys present but a
null value or an email already in the table make the insert fail; the
transaction is rolled back (table contents kept) while the SERIAL sequence
increment survives, and the handler answers 409. -/
lemma create_integrity_409 {db : Db} {p : Payload} (hall : allPresent p = true)
    (hviol : (p.getName.isNull || p.getEmail.isNull ||
        p.getAge.isNull || p.getCourse.isNull) = true ∨
      db.rows.any (fun r => r.email == p.getEmail) = true) :
    create_student true db p =
      (⟨db.rows, db.nextId + 1⟩, ⟨409, .error "Email already exists"⟩) := by
  rcases hviol with h | h
  · simp [create_student, firstMissing_eq_none hall, Db.insert, h]
  · rcases hn : (p.getName.isNull || p.getEmail.isNull ||
        p.getAge.isNull || p.getCourse.isNull) with _ | _
    · simp [create_student, firstMissing_eq_none hall, Db.insert, hn, h]
    · simp [create_student, firstMissing_eq_none hall, Db.insert, hn]

/-- C6: deleting an id with no matching row answers 404 with the store
unchanged; deleting an existing id answers 200 with a confirmation message,
afterwards a get on that id answers 404, and every row with a different id
is still stored (the surviving rows are exactly the filter on id). -/
theorem delete_semantics (db : Db) (sid : Nat) :
    ((∀ r ∈ db.rows, r.id ≠ sid) →
      delete_student true db sid = (db, ⟨404, .error "Student not found"⟩)) ∧
    (∀ r0 ∈ db.rows, r0.id = sid →
      (delete_student true db sid).2 = ⟨200, .message "Student deleted successfully"⟩ ∧
      (delete_student true db sid).1.rows = db.rows.filter (fun r => r.id != sid) ∧
      get_student true (delete_student true db sid).1 sid =
        ⟨404, .error "Student not found"⟩ ∧
      ∀ r ∈ db.rows, r.id ≠ sid → r ∈ (delete_student true db sid).1.rows) := by
  constructor
  · intro h
    have hz : db.rows.countP (fun r => r.id == sid) = 0 :=
      List.countP_eq_zero.mpr (fun r hr => by simpa using h r hr)
    simp [delete_student, hz]
  · intro r0 hr0 hid
    have hpos : 0 < db.rows.countP (fun r => r.id == sid) :=
      List.countP_pos_iff.mpr ⟨r0, hr0, by simp [hid]⟩
    have hz : (db.rows.countP (fun r => r.id == sid) == 0) = false := by
      simpa using Nat.pos_iff_ne_zero.mp hpos
    have hdel : delete_student true db sid =
        (⟨db.rows.filter (fun r => r.id != sid), db.nextId⟩,
         ⟨200, .message "Student deleted successfully"⟩) := by
      simp [delete_student, hz]
    have hfind : (db.rows.filter (fun r => r.id != sid)).find?
        (fun r => r.id == sid) = none := by
      rw [List.find?_eq_none]
      intro x hx
      have hne := (List.mem_filter.mp hx).2
      simp_all
    refine ⟨by rw [hdel], by rw [hdel], ?_, ?_⟩
    · rw [hdel]
      simp [get_student, hfind]
    · intro r hr hne
      rw [hdel]
      exact List.mem_filter.mpr ⟨hr, by simpa using hne⟩

/-- C6 witness: deleting row 1 from the sample store answers 200 and a
subsequent get on id 1 answers 404. -/
theorem delete_semantics_witness :
    (delete_student true db1 1).2 = ⟨200, .message "Student deleted successfully"⟩ ∧
    get_student true (delete_student true db1 1).1 1 =
      ⟨404, .error "Student not found"⟩ :=
  ⟨((delete_semantics db1 1).2 annRow (by decide) (by decide)).1,
   ((delete_semantics db1 1).2 annRow (by decide) (by decide)).2.2.1⟩

/-- C2: creating a student with a fresh email succeeds (201); a second
create reusing that email answers 409 'Email already exists', its write is
rolled back (the table contents after equal those after the first create),
and the table then holds exactly one row with that email. -/
theorem create_duplicate_email_409 (db : Db) (p1 p2 : Payload)
    (h1 : validPayload p1 = true) (h2 : allPresent p2 = true)
    (he : p2.getEmail = p1.getEmail)
    (hfresh : ∀ r ∈ db.rows, r.email ≠ p1.getEmail) :
    (create_student true db p1).2.status = 201 ∧
    (create_student true (create_student true db p1).1 p2).2 =
      ⟨409, .error "Email already exists"⟩ ∧
    (create_student true (create_student true db p1).1 p2).1.rows =
      (create_student true db p1).1.rows ∧
    (create_student true (create_student true db p1).1 p2).1.rows.countP
      (fun r => r.email == p1.getEmail) = 1 := by
  have hfr : db.rows.any (fun r => r.email == p1.getEmail) = false := by
    rw [List.any_eq_false]
    intro r hr
    simpa using hfresh r hr
  have h1s := create_valid_success h1 hfr
  have hany : (db.rows ++
      [(⟨db.nextId, p1.getName, p1.getEmail, p1.getAge, p1.getCourse⟩ : Row)]).any
      (fun r => r.email == p2.getEmail) = true := by
    simp [List.any_append, he]
  have h2s := @create_integrity_409 (create_student true db p1).1 p2
    h2 (Or.inr (by rw [h1s]; exact hany))
  have hcnt : ((create_student true db p1).1.rows).countP
      (fun r => r.email == p1.getEmail) = 1 := by
    rw [h1s]
    simp only [List.countP_append, List.countP_cons, List.countP_nil]
    have h0 : db.rows.countP (fun r => r.email == p1.getEmail) = 0 :=
      List.countP_eq_zero.mpr (fun r hr => by simpa using hfresh r hr)
    simp [h0]
  refine ⟨by rw [h1s], by rw [h2s], by rw [h2s], by rw [h2s]; exact hcnt⟩

/-- C2 witness: creating Ann then Bob with Ann's email on an empty store
gives 201 then 409, with exactly one stored row carrying that email. -/
theorem create_duplicate_email_409_witness :
    (create_student true emptyDb pAnn).2.status = 201 ∧
    (create_student true (create_student true emptyDb pAnn).1 pBob).2 =
      ⟨409, .error "Email already exists"⟩ ∧
    (create_student true (create_student true emptyDb pAnn).1 pBob).1.rows.countP
      (fun r => r.email == pAnn.getEmail) = 1 := by
  have h := create_duplicate_email_409 emptyDb pAnn pBob (by decide) (by decide)
    (by decide) (by decide)
  exact ⟨h.1, h.2.1, h.2.2.2⟩

/-- Whether the JSON body is an object carrying an `error` key: of the body
shapes the handlers produce, exactly the `{'error': ...}` objects. -/
def Body.hasErrorKey : Body → Bool
  | .error _ => true
  | _ => false

/-- The error-shape contract of §7: a failure status (4xx/5xx) comes with
an error body, a 2xx status never does. -/
def errorKeyContract (resp : Response) : Prop :=
  (400 ≤ resp.status → resp.body.hasErrorKey = true) ∧
  (200 ≤ resp.status ∧ resp.status < 300 → resp.body.hasErrorKey = false)

lemma errorKeyContract_health : errorKeyContract health_check := by
  simp [errorKeyContract, health_check, Body.hasErrorKey]

lemma errorKeyContract_get_students (c : Bool) (db : Db) :
    errorKeyContract (get_students c db) := by
  unfold get_students
  split <;> simp [errorKeyContract, Body.hasErrorKey]

lemma errorKeyContract_get_student (c : Bool) (db : Db) (sid : Nat) :
    errorKeyContract (get_student c db sid) := by
  unfold get_student
  split
  · simp [errorKeyContract, Body.hasErrorKey]
  · split <;> simp [errorKeyContract, Body.hasErrorKey]

lemma errorKeyContract_create (c : Bool) (db : Db) (p : Payload) :
    errorKeyContract (create_student c db p).2 := by
  unfold create_student
  split
  · simp [errorKeyContract, Body.hasErrorKey]
  · split
    · simp [errorKeyContract, Body.hasErrorKey]
    · split <;> simp [errorKeyContract, Body.hasErrorKey]

lemma errorKeyContract_update (c : Bool) (db : Db) (sid : Nat) (p : Payload) :
    errorKeyContract (update_student c db sid p).2 := by
  unfold update_student
  split
  · simp [errorKeyContract, Body.hasErrorKey]
  · split
    · simp [errorKeyContract, Body.hasErrorKey]
    · split <;> simp [errorKeyContract, Body.hasErrorKey]

lemma errorKeyContract_delete (c : Bool) (db : Db) (sid : Nat) :
    errorKeyContract (delete_student c db sid).2 := by
  unfold delete_student
  split
  · simp [errorKeyContract, Body.hasErrorKey]
  · split <;> simp [errorKeyContract, Body.hasErrorKey]

/-- C8: for every handler, every connectivity state, store state, id and
payload, the response satisfies the error-shape contract: a status of 400
or above carries a JSON object with an `error` key, and a 2xx status never
carries one. -/
theorem all_responses_error_key_contract (connOk : Bool) (db : Db) (sid : Nat)
    (p : Payload) :
    errorKeyContract health_check ∧
    errorKeyContract (get_students connOk db) ∧
    errorKeyContract (get_student connOk db sid) ∧
    errorKeyContract (create_student connOk db p).2 ∧
    errorKeyContract (update_student connOk db sid p).2 ∧
    errorKeyContract (delete_student connOk db sid).2 :=
  ⟨errorKeyContract_health, errorKeyContract_get_students connOk db,
   errorKeyContract_get_student connOk db sid, errorKeyContract_create connOk db p,
   errorKeyContract_update connOk db sid p, errorKeyContract_delete connOk db sid⟩

/-- Strict ascending-id order between rows. -/
def byIdLt (a b : Row) : Prop := a.id < b.id

instance : DecidableRel byIdLt := fun a b => Nat.decLt a.id b.id

instance : IsTrans Row byIdLt := ⟨fun _ _ _ => Nat.lt_trans⟩

instance : IsTrans Row byId := ⟨fun _ _ _ => Nat.le_trans⟩

instance : IsTotal Row byId := ⟨fun a b => Nat.le_total a.id b.id⟩

/-- Running a sequence of create requests (store reachable throughout),
keeping the store state each one leaves behind. -/
def createAll (db : Db) (ps : List Payload) : Db :=
  ps.foldl (fun d p => (create_student true d p).1) db

/-- Effect of a sequence of creates with column-typed payloads and pairwise
distinct emails, all fresh for the starting store: every insert succeeds,
each appended row taking the next sequence id, so row count grows by the
number of payloads and the rows stay strictly ascending in id. -/
lemma createAll_spec (ps : List Payload) : ∀ db : Db,
    (∀ p ∈ ps, validPayload p = true) →
    (ps.map Payload.getEmail).Nodup →
    (∀ p ∈ ps, ∀ r ∈ db.rows, r.email ≠ p.getEmail) →
    db.rows.Chain' byIdLt →
    (∀ r ∈ db.rows, r.id < db.nextId) →
    (createAll db ps).rows.length = db.rows.length + ps.length ∧
    (createAll db ps).rows.Chain' byIdLt ∧
    ∀ r ∈ (createAll db ps).rows, r.id < (createAll db ps).nextId := by
  induction ps with
  | nil =>
    intro db _ _ _ hch hbd
    exact ⟨rfl, hch, hbd⟩
  | cons p ps ih =>
    intro db hv hnd hfresh hch hbd
    have hvp : validPayload p = true := hv p (List.mem_cons_self p ps)
    have hfr : db.rows.any (fun r => r.email == p.getEmail) = false := by
      rw [List.any_eq_false]
      intro r hr
      simpa using hfresh p (List.mem_cons_self p ps) r hr
    have h1 := create_valid_success hvp hfr
    have hstep : createAll db (p :: ps) = createAll (create_student true db p).1 ps := rfl
    have hdb1 : (create_student true db p).1 =
        ⟨db.rows ++ [⟨db.nextId, p.getName, p.getEmail, p.getAge, p.getCourse⟩],
         db.nextId + 1⟩ := by rw [h1]
    rw [hstep, hdb1]
    have hndc : (∀ x ∈ ps, ¬x.getEmail = p.getEmail) ∧
        (ps.map Payload.getEmail).Nodup := by simpa using hnd
    have hih := ih ⟨db.rows ++ [⟨db.nextId, p.getName, p.getEmail, p.getAge, p.getCourse⟩],
        db.nextId + 1⟩
      (fun q hq => hv q (List.mem_cons_of_mem p hq))
      hndc.2
      (by
        intro q hq r hr
        rcases List.mem_append.mp hr with hr | hr
        · exact hfresh q (List.mem_cons_of_mem p hq) r hr
        · have hre : r = ⟨db.nextId, p.getName, p.getEmail, p.getAge, p.getCourse⟩ := by
            simpa using hr
          subst hre
          exact fun hcontra => hndc.1 q hq hcontra.symm)
      (by
        rw [List.chain'_append]
        refine ⟨hch, List.chain'_singleton _, ?_⟩
        intro x hx y hy
        have hxm : x ∈ db.rows := List.mem_of_mem_getLast? hx
        have hye : (⟨db.nextId, p.getName, p.getEmail, p.getAge, p.getCourse⟩ : Row) = y := by
          simpa using hy
        rw [← hye]
        exact hbd x hxm)
      (by
        intro r hr
        rcases List.mem_append.mp hr with hr | hr
        · exact Nat.lt_succ_of_lt (hbd r hr)
        · have hre : r = ⟨db.nextId, p.getName, p.getEmail, p.getAge, p.getCourse⟩ := by
            simpa using hr
          subst hre
          exact Nat.lt_succ_self _)
    refine ⟨?_, hih.2.1, hih.2.2⟩
    have h1l := hih.1
    simp at h1l ⊢
    omega

/-- C5: the list operation returns all stored rows sorted by ascending id
(for any store state, the returned list is a permutation of the table
sorted by id); in particular, after creating N column-typed students with
pairwise distinct emails on an initially empty store, it returns exactly N
records in strictly ascending id order. -/
theorem list_all_ordered_after_creates (ps : List Payload)
    (hv : ∀ p ∈ ps, validPayload p = true)
    (hnd : (ps.map Payload.getEmail).Nodup) :
    get_students true (createAll emptyDb ps) =
      ⟨200, .students (createAll emptyDb ps).rows⟩ ∧
    (createAll emptyDb ps).rows.length = ps.length ∧
    (createAll emptyDb ps).rows.Sorted byIdLt ∧
    ∀ db : Db, ∃ l : List Row, get_students true db = ⟨200, .students l⟩ ∧
      l.Perm db.rows ∧ l.Sorted byId := by
  have hspec := createAll_spec ps emptyDb hv hnd
    (by intro p _ r hr; simp [emptyDb] at hr)
    (by simp [emptyDb]) (by simp [emptyDb])
  have hlen : (createAll emptyDb ps).rows.length = ps.length := by
    simpa [emptyDb] using hspec.1
  have hsorted : (createAll emptyDb ps).rows.Sorted byIdLt :=
    List.chain'_iff_pairwise.mp hspec.2.1
  have hsortedLe : (createAll emptyDb ps).rows.Sorted byId :=
    hsorted.imp (fun h => Nat.le_of_lt h)
  refine ⟨?_, hlen, hsorted, ?_⟩
  · simp [get_students, Db.selectAll, List.Sorted.insertionSort_eq hsortedLe]
  · intro db
    exact ⟨db.selectAll, by simp [get_students],
      List.perm_insertionSort byId db.rows, List.sorted_insertionSort byId db.rows⟩

/-- C5 witness: creating Ann then Car on an empty store and listing
returns exactly those two rows in ascending id order. -/
theorem list_all_ordered_after_creates_witness :
    get_students true (createAll emptyDb [pAnn, pCar]) =
      ⟨200, .students (createAll emptyDb [pAnn, pCar]).rows⟩ ∧
    (createAll emptyDb [pAnn, pCar]).rows.length = 2 ∧
    (createAll emptyDb [pAnn, pCar]).rows.Sorted byIdLt := by
  have h := list_all_ordered_after_creates [pAnn, pCar] (by decide) (by decide)
  exact ⟨h.1, h.2.1, h.2.2.1⟩

/-- None of the four data fields of a stored row is SQL NULL. -/
def RowNonNull (r : Row) : Prop :=
  r.name ≠ .null ∧ r.email ≠ .null ∧ r.age ≠ .null ∧ r.course ≠ .null

/-- The §3 invariant: unique ids, unique emails, no null data field. -/
def StudentInvariant (db : Db) : Prop :=
  (db.rows.map Row.id).Nodup ∧ (db.rows.map Row.email).Nodup ∧
  ∀ r ∈ db.rows, RowNonNull r

/-- Well-formedness: the §3 invariant plus the SERIAL discipline that every
stored id is below the sequence counter (what makes fresh ids unique). -/
def Wf (db : Db) : Prop :=
  StudentInvariant db ∧ ∀ r ∈ db.rows, r.id < db.nextId

lemma JVal.isNull_false_iff {j : JVal} : j.isNull = false ↔ j ≠ .null := by
  cases j <;> simp [JVal.isNull]

lemma insert_wf {db : Db} (hwf : Wf db) (n e a c : JVal) :
    Wf (db.insert n e a c).1 := by
  obtain ⟨⟨hids, hems, hnn⟩, hbd⟩ := hwf
  unfold Db.insert
  split
  · exact ⟨⟨hids, hems, hnn⟩, fun r hr => Nat.lt_succ_of_lt (hbd r hr)⟩
  next h1 =>
    split
    next h2 => exact ⟨⟨hids, hems, hnn⟩, fun r hr => Nat.lt_succ_of_lt (hbd r hr)⟩
    next h2 =>
      have h1' : ((n.isNull = false ∧ e.isNull = false) ∧ a.isNull = false) ∧
          c.isNull = false := by simpa using h1
      obtain ⟨⟨⟨hn1, he1⟩, ha1⟩, hc1⟩ := h1'
      have hfr : ∀ r ∈ db.rows, r.email ≠ e := by simpa using h2
      refine ⟨⟨?_, ?_, ?_⟩, ?_⟩
      · show ((db.rows ++ [(⟨db.nextId, n, e, a, c⟩ : Row)]).map Row.id).Nodup
        rw [List.map_append, List.nodup_append]
        refine ⟨hids, by simp, ?_⟩
        intro x hx hx2
        have hxe : x = db.nextId := by simpa using hx2
        subst hxe
        obtain ⟨r, hr, hrid⟩ := List.mem_map.mp hx
        exact absurd (hrid ▸ hbd r hr) (lt_irrefl _)
      · show ((db.rows ++ [(⟨db.nextId, n, e, a, c⟩ : Row)]).map Row.email).Nodup
        rw [List.map_append, List.nodup_append]
        refine ⟨hems, by simp, ?_⟩
        intro x hx hx2
        have hxe : x = e := by simpa using hx2
        subst hxe
        obtain ⟨r, hr, hre⟩ := List.mem_map.mp hx
        exact hfr r hr hre
      · intro r hr
        rcases List.mem_append.mp hr with hr | hr
        · exact hnn r hr
        · have hre : r = ⟨db.nextId, n, e, a, c⟩ := by simpa using hr
          subst hre
          exact ⟨JVal.isNull_false_iff.mp hn1, JVal.isNull_false_iff.mp he1,
            JVal.isNull_false_iff.mp ha1, JVal.isNull_false_iff.mp hc1⟩
      · intro r hr
        rcases List.mem_append.mp hr with hr | hr
        · exact Nat.lt_succ_of_lt (hbd r hr)
        · have hre : r = ⟨db.nextId, n, e, a, c⟩ := by simpa using hr
          subst hre
          exact Nat.lt_succ_self _

lemma nodup_emails_after_update (sid : Nat) (nm e a c : JVal) :
    ∀ rows : List Row, (rows.map Row.id).Nodup → (rows.map Row.email).Nodup →
    (∀ r ∈ rows, r.id ≠ sid → r.email ≠ e) →
    ((rows.map (fun r => if r.id == sid then (⟨r.id, nm, e, a, c⟩ : Row) else r)).map
      Row.email).Nodup := by
  intro rows
  induction rows with
  | nil =>
    intro _ _ _
    simp
  | cons r rs ihr =>
    intro hid hem hfr
    simp only [List.map_cons] at hid hem
    rw [List.nodup_cons] at hid hem
    by_cases hr : r.id = sid
    · have hbeq : (r.id == sid) = true := by simp [hr]
      have hall : ∀ x ∈ rs, x.id ≠ sid := by
        intro x hx hcon
        exact hid.1 (List.mem_map.mpr ⟨x, hx, hcon.trans hr.symm⟩)
      have htail : List.map (fun x => if x.id == sid then (⟨x.id, nm, e, a, c⟩ : Row) else x) rs
          = rs := by
        have hmc : List.map (fun x => if x.id == sid then (⟨x.id, nm, e, a, c⟩ : Row) else x) rs
            = List.map id rs :=
          List.map_congr_left (fun x hx => by simp [hall x hx])
        simpa using hmc
      simp only [List.map_cons, hbeq, if_true]
      rw [htail, List.nodup_cons]
      constructor
      · intro hmem
        obtain ⟨x, hx, hxe⟩ := List.mem_map.mp hmem
        exact hfr x (List.mem_cons_of_mem r hx) (hall x hx) hxe
      · exact hem.2
    · have hbeq : (r.id == sid) = false := by simp [hr]
      simp only [List.map_cons, hbeq, Bool.false_eq_true, if_false]
      rw [List.nodup_cons]
      refine ⟨?_, ihr hid.2 hem.2 (fun x hx => hfr x (List.mem_cons_of_mem r hx))⟩
      intro hmem
      obtain ⟨y, hy, hye⟩ := List.mem_map.mp hmem
      obtain ⟨x, hx, hxy⟩ := List.mem_map.mp hy
      by_cases hxid : x.id = sid
      · have hyx : y = (⟨x.id, nm, e, a, c⟩ : Row) := by
          rw [← hxy]
          simp [hxid]
        rw [hyx] at hye
        exact hfr r (List.mem_cons_self r rs) hr hye.symm
      · have hyx : y = x := by
          rw [← hxy]
          simp [hxid]
        rw [hyx] at hye
        exact hem.1 (List.mem_map.mpr ⟨x, hx, hye⟩)

lemma updateRow_wf {db : Db} (hwf : Wf db) (sid : Nat) (nm e a c : JVal) :
    Wf (db.updateRow sid nm e a c).1 := by
  obtain ⟨⟨hids, hems, hnn⟩, hbd⟩ := hwf
  unfold Db.updateRow
  split
  · exact ⟨⟨hids, hems, hnn⟩, hbd⟩
  next h1 =>
    split
    next h2 => exact ⟨⟨hids, hems, hnn⟩, hbd⟩
    next h2 =>
      have h1' : ((nm.isNull = false ∧ e.isNull = false) ∧ a.isNull = false) ∧
          c.isNull = false := by simpa using h1
      obtain ⟨⟨⟨hn1, he1⟩, ha1⟩, hc1⟩ := h1'
      have hfr : ∀ r ∈ db.rows, r.id ≠ sid → r.email ≠ e := by simpa using h2
      have hidm : (db.rows.map
          (fun r => if r.id == sid then (⟨r.id, nm, e, a, c⟩ : Row) else r)).map Row.id
          = db.rows.map Row.id := by
        rw [List.map_map]
        apply List.map_congr_left
        intro x _
        by_cases hx : x.id = sid <;> simp [hx]
      refine ⟨⟨?_, ?_, ?_⟩, ?_⟩
      · show ((db.rows.map
            (fun r => if r.id == sid then (⟨r.id, nm, e, a, c⟩ : Row) else r)).map Row.id).Nodup
        rw [hidm]
        exact hids
      · exact nodup_emails_after_update sid nm e a c db.rows hids hems hfr
      · intro r hr
        obtain ⟨x, hx, hxy⟩ := List.mem_map.mp hr
        by_cases hxid : x.id = sid
        · have hrx : r = (⟨x.id, nm, e, a, c⟩ : Row) := by
            rw [← hxy]
            simp [hxid]
          subst hrx
          exact ⟨JVal.isNull_false_iff.mp hn1, JVal.isNull_false_iff.mp he1,
            JVal.isNull_false_iff.mp ha1, JVal.isNull_false_iff.mp hc1⟩
        · have hrx : r = x := by
            rw [← hxy]
            simp [hxid]
          subst hrx
          exact hnn _ hx
      · intro r hr
        obtain ⟨x, hx, hxy⟩ := List.mem_map.mp hr
        have hrid : r.id = x.id := by
          rw [← hxy]
          by_cases hxid : x.id = sid <;> simp [hxid]
        rw [hrid]
        exact hbd x hx

lemma create_wf {db : Db} (hwf : Wf db) (c : Bool) (p : Payload) :
    Wf (create_student c db p).1 := by
  unfold create_student
  split
  · exact hwf
  · split
    · exact hwf
    · rcases hins : db.insert p.getName p.getEmail p.getAge p.getCourse with ⟨db', res⟩
      have hwf' : Wf db' := by
        have hi := insert_wf hwf p.getName p.getEmail p.getAge p.getCourse
        rwa [hins] at hi
      cases res <;> simp only [hins] <;> exact hwf'

lemma update_wf {db : Db} (hwf : Wf db) (c : Bool) (sid : Nat) (p : Payload) :
    Wf (update_student c db sid p).1 := by
  unfold update_student
  split
  · exact hwf
  · split
    · exact hwf
    · rcases hup : db.updateRow sid p.getName p.getEmail p.getAge p.getCourse with ⟨db', res⟩
      have hwf' : Wf db' := by
        have hu := updateRow_wf hwf sid p.getName p.getEmail p.getAge p.getCourse
        rwa [hup] at hu
      cases res with
      | ok r =>
        simp only [hup]
        exact hwf'
      | integrityError =>
        simp only [hup]
        exact hwf

lemma delete_wf {db : Db} (hwf : Wf db) (c : Bool) (sid : Nat) :
    Wf (delete_student c db sid).1 := by
  obtain ⟨⟨hids, hems, hnn⟩, hbd⟩ := hwf
  unfold delete_student
  split
  · exact ⟨⟨hids, hems, hnn⟩, hbd⟩
  · split
    · exact ⟨⟨hids, hems, hnn⟩, hbd⟩
    · refine ⟨⟨?_, ?_, ?_⟩, ?_⟩
      · exact List.Nodup.sublist
          (List.Sublist.map Row.id (List.filter_sublist db.rows)) hids
      · exact List.Nodup.sublist
          (List.Sublist.map Row.email (List.filter_sublist db.rows)) hems
      · intro r hr
        exact hnn r (List.mem_filter.mp hr).1
      · intro r hr
        exact hbd r (List.mem_filter.mp hr).1

/-- One request against the service, with its connectivity state. -/
inductive Op where
  | createOp : Bool → Payload → Op
  | updateOp : Bool → Nat → Payload → Op
  | deleteOp : Bool → Nat → Op

/-- The store state an operation leaves behind. -/
def applyOp (db : Db) : Op → Db
  | .createOp c p => (create_student c db p).1
  | .updateOp c sid p => (update_student c db sid p).1
  | .deleteOp c sid => (delete_student c db sid).1

/-- Store state after a sequence of requests starting from the freshly
initialized table. -/
def runOps (ops : List Op) : Db := ops.foldl applyOp emptyDb

lemma applyOp_wf {db : Db} (hwf : Wf db) (o : Op) : Wf (applyOp db o) := by
  cases o with
  | createOp c p => exact create_wf hwf c p
  | updateOp c sid p => exact update_wf hwf c sid p
  | deleteOp c sid => exact delete_wf hwf c sid

lemma emptyDb_wf : Wf emptyDb := by
  refine ⟨⟨?_, ?_, ?_⟩, ?_⟩ <;> simp [emptyDb]

lemma foldl_applyOp_wf (ops : List Op) : ∀ db : Db, Wf db → Wf (ops.foldl applyOp db) := by
  induction ops with
  | nil =>
    intro db h
    exact h
  | cons o ops ih =>
    intro db h
    exact ih _ (applyOp_wf h o)

/-- C7: in every store state reachable from the freshly initialized table
by create, update and delete requests, stored ids are pairwise distinct,
stored emails are pairwise distinct, and no stored field is null; and the
invariant is preserved by whichever operation comes next. -/
theorem stored_student_invariant (ops : List Op) (o : Op) :
    StudentInvariant (runOps ops) ∧ StudentInvariant (applyOp (runOps ops) o) :=
  ⟨(foldl_applyOp_wf ops emptyDb emptyDb_wf).1,
   (applyOp_wf (foldl_applyOp_wf ops emptyDb emptyDb_wf) o).1⟩

end StudentApp
